import Mathlib

/-!
Shallow embedding of `src/python/pants/backend/jvm/tasks/reports/junit_html_report.py`
(Python 2): data objects `ReportTestCase` and `ReportTestSuite`, the XML parsing
performed by `JUnitHtmlReport`, and the report-generation control flow.

Python conventions modelled explicitly:
  * `float` values are modelled exactly: a parsed literal is a scaled decimal
    `num / 10 ^ exp` (`PyFloat`), and the `'{:.2f}'` format is computed on the
    exact fraction, rounding to two decimals with ties to the even last digit
    (an exact-arithmetic idealization of CPython's correctly rounded double
    formatting; no theorem below depends on tie behavior).
  * Exceptions are modelled with `Except`.  The spec's error taxonomy groups
    the exceptions raised during parsing (xml.etree `ParseError` for malformed
    documents, `KeyError` for a missing required attribute, `ValueError` for a
    non-numeric `int()`/`float()` literal) under the single name `ParseError`,
    so the embedded error type `ParseError` carries one constructor for each.
  * Python truthiness: `if test_count:` is `test_count ≠ 0`; a non-`None`
    failure/error dict is always non-empty, hence truthy, so `if self.error:`
    is `Option.isSome`.
  * Python string comparison is lexicographic on code points (`charListLt`),
    and `str.lower()` lowercases each character (`pyLower`).
-/

/-- Exact value of a Python float as used here: `num / 10 ^ exp`. -/
structure PyFloat where
  num : Int
  exp : Nat
deriving DecidableEq

/-- Exact addition of two scaled decimals (`total_time` accumulation). -/
def PyFloat.add (a b : PyFloat) : PyFloat :=
  let m := max a.exp b.exp
  ⟨a.num * ((10 : Int) ^ (m - a.exp)) + b.num * ((10 : Int) ^ (m - b.exp)), m⟩

/-- The failure/error record built by the parser:
`{'type': elem.attrib['type'], 'message': elem.text}`.
`message` is the element text, which may be `None`. -/
structure FERec where
  type : String
  message : Option String
deriving DecidableEq

/-- Data object for a JUnit test case (`ReportTestCase.__init__`).
`time` is `float(time)` of the constructor argument. -/
structure ReportTestCase where
  name : String
  time : PyFloat
  failure : Option FERec
  error : Option FERec
  skipped : Bool
deriving DecidableEq

/-- `ReportTestCase.icon_class`: starts from `'test-passed'` and overwrites it
through the `if skipped / elif error / elif failure` chain. -/
def ReportTestCase.icon_class (c : ReportTestCase) : String :=
  if c.skipped then "test-skipped"
  else if c.error.isSome then "test-error"
  else if c.failure.isSome then "test-failure"
  else "test-passed"

/-- The dict returned by `ReportTestCase.as_dict`.  The `message` key is present
(`= some v`) only when an error or failure record is present; its value `v` is
that record's (possibly `None`) message text. -/
structure CaseDict where
  name : String
  time : PyFloat
  icon_class : String
  message : Option (Option String)
deriving DecidableEq

/-- `ReportTestCase.as_dict`: name, time and icon class, plus a `message` entry
from the error record if present, else from the failure record if present. -/
def ReportTestCase.as_dict (c : ReportTestCase) : CaseDict :=
  { name := c.name
    time := c.time
    icon_class := c.icon_class
    message :=
      match c.error with
      | some e => some e.message
      | none =>
        match c.failure with
        | some f => some f.message
        | none => none }

/-- Rounds the nonnegative fraction `a / b` (`b > 0`) to the nearest natural,
ties to the even one — the rounding `'{:.2f}'` applies to the scaled value. -/
def roundHalfEvenFrac (a b : Nat) : Nat :=
  let n := a / b
  let r := a % b
  if 2 * r < b then n
  else if b < 2 * r then n + 1
  else if n % 2 = 0 then n else n + 1

/-- `'{:.2f}'.format(x)` for the exact value `x = (-1)^neg * a / b`:
sign, integer part, and exactly two decimal digits. -/
def fmt2fFrac (neg : Bool) (a b : Nat) : String :=
  let sign := if neg then "-" else ""
  let n := roundHalfEvenFrac (100 * a) b
  sign ++ toString (n / 100) ++ "." ++
    String.mk [Nat.digitChar (n / 10 % 10), Nat.digitChar (n % 10)]

/-- Inductive of test-case field state for a suite: the raw `ReportTestCase`
list from parsing, or the list of dicts that `as_dict` overwrites it with. -/
inductive TCField where
  | original (cs : List ReportTestCase)
  | converted (ds : List CaseDict)
deriving DecidableEq

/-- Data object for a JUnit test suite (`ReportTestSuite.__init__`), with the
integer/float coercions already applied.  `success` and `icon_class_entry`
model the `'success'` and `'icon_class'` keys that `as_dict` later inserts
into the instance `__dict__`; they are absent (`none`) at construction. -/
structure ReportTestSuite where
  name : String
  tests : Int
  errors : Int
  failures : Int
  skipped : Int
  time : PyFloat
  testcases : TCField
  success : Option String := none
  icon_class_entry : Option String := none
deriving DecidableEq

/-- Python `str.lower()` (ASCII as in these names). -/
def pyLower (s : String) : String :=
  String.mk (s.data.map Char.toLower)

/-- Python string `<`: lexicographic on code points, a proper prefix sorts
first. -/
def charListLt : List Char → List Char → Bool
  | [], [] => false
  | [], _ :: _ => true
  | _ :: _, [] => false
  | a :: as, b :: bs =>
    if a.toNat < b.toNat then true
    else if b.toNat < a.toNat then false
    else charListLt as bs

/-- Python string `<` on `String`. -/
def pyStrLt (a b : String) : Bool :=
  charListLt a.data b.data

/-- Python tuple comparison `(a1, a2) > (b1, b2)`: lexicographic. -/
def pyPairGt (a b : Int × Int) : Bool :=
  decide (b.1 < a.1 ∨ (a.1 = b.1 ∧ b.2 < a.2))

/-- Python tuple comparison `(a1, a2) < (b1, b2)`: lexicographic. -/
def pyPairLt (a b : Int × Int) : Bool :=
  pyPairGt b a

/-- `ReportTestSuite.__lt__`: a strictly worse `(errors, failures)` pair sorts
first; ties are broken by case-insensitive name. -/
def ReportTestSuite.lt (a b : ReportTestSuite) : Bool :=
  if pyPairGt (a.errors, a.failures) (b.errors, b.failures) then true
  else if pyPairLt (a.errors, a.failures) (b.errors, b.failures) then false
  else pyStrLt (pyLower a.name) (pyLower b.name)

/-- `ReportTestSuite.success_rate` (staticmethod): `'0.00%'` when
`test_count` is falsy, else `(test_count - unsuccessful) * 100.0 / test_count`
formatted as `'{:.2f}%'` (the exact fraction is handed to the formatter). -/
def ReportTestSuite.success_rate
    (test_count error_count failure_count skipped_count : Int) : String :=
  if test_count ≠ 0 then
    let unsuccessful_count := error_count + failure_count + skipped_count
    let numer : Int := (test_count - unsuccessful_count) * 100
    fmt2fFrac (decide (numer * test_count < 0)) numer.natAbs
      test_count.natAbs ++ "%"
  else "0.00%"

/-- `ReportTestSuite.icon_class` (staticmethod): starts from `'test-passed'`
and overwrites it through the `if tests == skipped / elif errors / elif
failures` chain. -/
def ReportTestSuite.icon_class
    (test_count error_count failure_count skipped_count : Int) : String :=
  if test_count = skipped_count then "test-skipped"
  else if 0 < error_count then "test-error"
  else if 0 < failure_count then "test-failure"
  else "test-passed"

/-- `AttributeError`, raised when `as_dict` is mapped over values (dicts) that
do not have the attribute. -/
inductive AttrError where
  | attributeError (attr : String)
deriving DecidableEq

/-- `map(lambda tc: tc.as_dict(), self.testcases)` (Python 2 `map` is eager):
over the original case objects it builds their dicts; over an already
converted non-empty list the first element is a dict without an `as_dict`
attribute, raising `AttributeError`. -/
def mapCaseDicts : TCField → Except AttrError (List CaseDict)
  | .original cs => .ok (cs.map ReportTestCase.as_dict)
  | .converted [] => .ok []
  | .converted (_ :: _) => .error (.attributeError "as_dict")

/-- `ReportTestSuite.as_dict`: `d = self.__dict__` aliases the instance
dictionary, so the returned mapping and the mutated suite are one object; the
result models both.  The source assigns `d['success']` and `d['icon_class']`
before evaluating the `map` over `d['testcases']`; this model performs the
`map` first, which is observationally identical on the success path (the
`AttributeError` path returns no state either way). -/
def ReportTestSuite.as_dict (s : ReportTestSuite) :
    Except AttrError ReportTestSuite :=
  match mapCaseDicts s.testcases with
  | .error e => .error e
  | .ok ds =>
    .ok { s with
      success := some (ReportTestSuite.success_rate s.tests s.errors
        s.failures s.skipped)
      icon_class_entry := some (ReportTestSuite.icon_class s.tests s.errors
        s.failures s.skipped)
      testcases := .converted ds }

/-- An XML element: tag, attribute mapping, text, children (in document
order). -/
inductive XmlElem where
  | mk (tag : String) (attrib : List (String × String)) (text : Option String)
      (children : List XmlElem)

/-- The element's tag. -/
def XmlElem.tag : XmlElem → String
  | .mk t _ _ _ => t

/-- The element's attribute mapping. -/
def XmlElem.attrib : XmlElem → List (String × String)
  | .mk _ a _ _ => a

/-- The element's text, `None` when absent. -/
def XmlElem.text : XmlElem → Option String
  | .mk _ _ x _ => x

/-- The element's children. -/
def XmlElem.children : XmlElem → List XmlElem
  | .mk _ _ _ cs => cs

mutual

/-- `elem.iter(tag)`: the elements with the given tag in the subtree rooted at
`e`, in document (preorder) order, `e` itself included when it matches. -/
def XmlElem.iter (e : XmlElem) (tag : String) : List XmlElem :=
  match e with
  | .mk t a x cs =>
    (if t = tag then [XmlElem.mk t a x cs] else []) ++ XmlElem.iterList cs tag

/-- `iter` over a list of sibling subtrees, left to right. -/
def XmlElem.iterList (es : List XmlElem) (tag : String) : List XmlElem :=
  match es with
  | [] => []
  | c :: cs => XmlElem.iter c tag ++ XmlElem.iterList cs tag

end

/-- The parse-phase exceptions, grouped as the spec's `ParseError` taxonomy:
`malformedXml` is xml.etree's `ParseError` on a file that is not well-formed
(or unreadable), `keyError` is the `KeyError` from `elem.attrib[k]` on a
missing attribute, `valueError` is the `ValueError` from `int()`/`float()` on
a non-numeric literal. -/
inductive ParseError where
  | malformedXml
  | keyError (key : String)
  | valueError (literal : String)
deriving DecidableEq

/-- `ET.parse(xml_file).getroot()`, the external XML parser: an input file is
modelled as `some root` when well-formed and `none` when malformed or
unreadable, in which case parsing raises. -/
def etParse : Option XmlElem → Except ParseError XmlElem
  | none => .error .malformedXml
  | some root => .ok root

/-- `elem.attrib[key]`: the value, or a `KeyError` when absent. -/
def getAttr (e : XmlElem) (key : String) : Except ParseError String :=
  match e.attrib.lookup key with
  | some v => .ok v
  | none => .error (.keyError key)

/-- Value of a nonempty digit string. -/
def digitsToNat (cs : List Char) : Nat :=
  cs.foldl (fun a c => a * 10 + (c.toNat - 48)) 0

/-- Python `str.strip()`: surrounding whitespace removed. -/
def pyStrip (cs : List Char) : List Char :=
  ((cs.dropWhile Char.isWhitespace).reverse.dropWhile Char.isWhitespace).reverse

/-- Python `int(s)` on a stripped literal: optional sign then digits. -/
def pyIntCore : List Char → Option Int
  | [] => none
  | '-' :: cs =>
    if cs ≠ [] ∧ cs.all Char.isDigit then some (-(digitsToNat cs : Int))
    else none
  | '+' :: cs =>
    if cs ≠ [] ∧ cs.all Char.isDigit then some (digitsToNat cs : Int)
    else none
  | cs =>
    if cs.all Char.isDigit then some (digitsToNat cs : Int) else none

/-- Python `int(s)`: surrounding whitespace is ignored; a non-numeric literal
raises `ValueError`. -/
def pyInt (s : String) : Except ParseError Int :=
  match pyIntCore (pyStrip s.data) with
  | some n => .ok n
  | none => .error (.valueError s)

/-- Magnitude of a Python float literal: digits with an optional fractional
part (`"1"`, `"1.5"`, `"1."`, `".5"`). -/
def pyFloatMag (cs : List Char) : Option PyFloat :=
  let ip := cs.takeWhile Char.isDigit
  let rest := cs.dropWhile Char.isDigit
  match rest with
  | [] => if ip ≠ [] then some ⟨(digitsToNat ip : Int), 0⟩ else none
  | '.' :: fr =>
    if fr.all Char.isDigit ∧ (ip ≠ [] ∨ fr ≠ []) then
      some ⟨(digitsToNat ip : Int) * ((10 : Int) ^ fr.length) +
        (digitsToNat fr : Int), fr.length⟩
    else none
  | _ => none

/-- Python `float(s)`: optional sign then a float magnitude; a non-numeric
literal raises `ValueError`. -/
def pyFloat (s : String) : Except ParseError PyFloat :=
  let core :=
    match pyStrip s.data with
    | '-' :: rest => (pyFloatMag rest).map (fun q => ⟨-q.num, q.exp⟩)
    | '+' :: rest => pyFloatMag rest
    | cs => pyFloatMag cs
  match core with
  | some q => .ok q
  | none => .error (.valueError s)

/-- The `for f in testcase.iter('failure')` (resp. `'error'`) loop body:
each iteration overwrites the record with one built from the current element,
reading its `type` attribute (a `KeyError` when absent) and text. -/
def lastFE (acc : Option FERec) : List XmlElem → Except ParseError (Option FERec)
  | [] => .ok acc
  | f :: rest =>
    match f.attrib.lookup "type" with
    | none => .error (.keyError "type")
    | some t => lastFE (some { type := t, message := f.text }) rest

/-- `testcase.attrib.get('time', 0)` followed by `float(time)` in
`ReportTestCase.__init__`. -/
def getCaseTime (tc : XmlElem) : Except ParseError PyFloat :=
  match tc.attrib.lookup "time" with
  | none => .ok ⟨0, 0⟩
  | some s => pyFloat s

/-- The body of the `for testcase in root.iter('testcase')` loop: the failure
and error records (last one wins), the skipped flag (any `<skipped>`
descendant), then the `ReportTestCase` construction from the `name` and
optional `time` attributes. -/
def parseTestcaseElem (tc : XmlElem) : Except ParseError ReportTestCase :=
  match lastFE none (tc.iter "failure") with
  | .error e => .error e
  | .ok failure =>
    match lastFE none (tc.iter "error") with
    | .error e => .error e
    | .ok error =>
      let skipped := !(tc.iter "skipped").isEmpty
      match getAttr tc "name" with
      | .error e => .error e
      | .ok name =>
        match getCaseTime tc with
        | .error e => .error e
        | .ok time => .ok { name, time, failure, error, skipped }

/-- The whole `for testcase in root.iter('testcase')` loop, appending each
parsed case in order; the first exception aborts. -/
def parseTestcaseElems : List XmlElem → Except ParseError (List ReportTestCase)
  | [] => .ok []
  | tc :: rest =>
    match parseTestcaseElem tc with
    | .error e => .error e
    | .ok c =>
      match parseTestcaseElems rest with
      | .error e => .error e
      | .ok cs => .ok (c :: cs)

/-- The body of the `for testsuite in root.iter('testsuite')` loop: attribute
lookups in call order (`name`, `tests`, `errors`, `failures`,
`attrib.get('skipped', 0)`, `time`), then the `int()`/`float()` coercions
performed by `ReportTestSuite.__init__` (`tests`, `errors`, `failures`,
`skipped`, `time`), with the file's whole flat `testcases` list attached. -/
def parseSuiteElem (ts : XmlElem) (testcases : List ReportTestCase) :
    Except ParseError ReportTestSuite :=
  match getAttr ts "name" with
  | .error e => .error e
  | .ok nameA =>
  match getAttr ts "tests" with
  | .error e => .error e
  | .ok testsA =>
  match getAttr ts "errors" with
  | .error e => .error e
  | .ok errorsA =>
  match getAttr ts "failures" with
  | .error e => .error e
  | .ok failuresA =>
  let skippedA := ts.attrib.lookup "skipped"
  match getAttr ts "time" with
  | .error e => .error e
  | .ok timeA =>
  match pyInt testsA with
  | .error e => .error e
  | .ok tests =>
  match pyInt errorsA with
  | .error e => .error e
  | .ok errors =>
  match pyInt failuresA with
  | .error e => .error e
  | .ok failures =>
  match (match skippedA with
         | none => Except.ok (0 : Int)
         | some sv => pyInt sv) with
  | .error e => .error e
  | .ok skipped =>
  match pyFloat timeA with
  | .error e => .error e
  | .ok time =>
    .ok { name := nameA, tests, errors, failures, skipped, time,
          testcases := .original testcases }

/-- The whole `for testsuite in root.iter('testsuite')` loop, appending each
suite in order; every suite receives the same `testcases` list. -/
def parseSuiteElems (els : List XmlElem) (testcases : List ReportTestCase) :
    Except ParseError (List ReportTestSuite) :=
  match els with
  | [] => .ok []
  | ts :: rest =>
    match parseSuiteElem ts testcases with
    | .error e => .error e
    | .ok s =>
      match parseSuiteElems rest testcases with
      | .error e => .error e
      | .ok ss => .ok (s :: ss)

/-- `JUnitHtmlReport._parse_xml_file`: parse the document, collect every
`<testcase>` in the document into one flat list, then build one
`ReportTestSuite` per `<testsuite>` element, each holding that flat list. -/
def JUnitHtmlReport._parse_xml_file (file : Option XmlElem) :
    Except ParseError (List ReportTestSuite) :=
  match etParse file with
  | .error e => .error e
  | .ok root =>
    match parseTestcaseElems (root.iter "testcase") with
    | .error e => .error e
    | .ok testcases => parseSuiteElems (root.iter "testsuite") testcases

/-- The accumulation loop of `JUnitHtmlReport._parse_xml_files` over the
`TEST-*.xml` files, in enumeration order; an exception in any file aborts. -/
def parseAllFiles : List (Option XmlElem) →
    Except ParseError (List ReportTestSuite)
  | [] => .ok []
  | f :: rest =>
    match JUnitHtmlReport._parse_xml_file f with
    | .error e => .error e
    | .ok ss =>
      match parseAllFiles rest with
      | .error e => .error e
      | .ok rest' => .ok (ss ++ rest')

/-- `JUnitHtmlReport._parse_xml_files`: parse every file, then
`testsuites.sort()` — CPython's stable sort driven by
`ReportTestSuite.__lt__`. -/
def JUnitHtmlReport._parse_xml_files (files : List (Option XmlElem)) :
    Except ParseError (List ReportTestSuite) :=
  match parseAllFiles files with
  | .error e => .error e
  | .ok ss => .ok (ss.mergeSort (fun a b => !ReportTestSuite.lt b a))

/-- The template data mapping built by `JUnitHtmlReport._generate_html`; the
rendered report is a pure function of it, so the written file is modelled by
this value. -/
structure ReportValues where
  total_tests : Int
  total_errors : Int
  total_failures : Int
  total_skipped : Int
  total_time : PyFloat
  total_success : String
  summary_icon_class : String
  testsuites : List ReportTestSuite
deriving DecidableEq

/-- `map(lambda ts: ts.as_dict(), testsuites)` (eager). -/
def mapSuiteDicts : List ReportTestSuite →
    Except AttrError (List ReportTestSuite)
  | [] => .ok []
  | s :: rest =>
    match s.as_dict with
    | .error e => .error e
    | .ok s' =>
      match mapSuiteDicts rest with
      | .error e => .error e
      | .ok rest' => .ok (s' :: rest')

/-- `JUnitHtmlReport._generate_html`: grand totals over all suites, the
derived grand success rate and icon class, and the mapped suite dicts. -/
def JUnitHtmlReport._generate_html (testsuites : List ReportTestSuite) :
    Except AttrError ReportValues :=
  let total_tests := testsuites.foldl (fun a ts => a + ts.tests) 0
  let total_errors := testsuites.foldl (fun a ts => a + ts.errors) 0
  let total_failures := testsuites.foldl (fun a ts => a + ts.failures) 0
  let total_skipped := testsuites.foldl (fun a ts => a + ts.skipped) 0
  let total_time := testsuites.foldl (fun a ts => a.add ts.time) ⟨0, 0⟩
  match mapSuiteDicts testsuites with
  | .error e => .error e
  | .ok ds =>
    .ok { total_tests, total_errors, total_failures, total_skipped, total_time
          total_success := ReportTestSuite.success_rate total_tests
            total_errors total_failures total_skipped
          summary_icon_class := ReportTestSuite.icon_class total_tests
            total_errors total_failures total_skipped
          testsuites := ds }

/-- Any exception escaping `JUnitHtmlReport.report`. -/
inductive ReportErr where
  | parseErr (e : ParseError)
  | attrErr (e : AttrError)
deriving DecidableEq

/-- `JUnitHtmlReport.report`, as a transformer of the report file's contents
(`none` = the file does not exist).  All parsing completes first; only then is
the output file opened (`open(path, 'wb')` truncates it before the write
argument is evaluated), so a parse exception propagates with the previous
contents untouched, while a failure inside `_generate_html` would leave the
file truncated (`none`). -/
def JUnitHtmlReport.report (files : List (Option XmlElem))
    (prevReport : Option ReportValues) :
    Except ReportErr ReportValues × Option ReportValues :=
  match JUnitHtmlReport._parse_xml_files files with
  | .error e => (.error (.parseErr e), prevReport)
  | .ok testsuites =>
    match JUnitHtmlReport._generate_html testsuites with
    | .error e => (.error (.attrErr e), none)
    | .ok values => (.ok values, some values)

/-- A digit index below ten renders as a digit character. -/
theorem digitChar_isDigit {m : Nat} (h : m < 10) :
    (Nat.digitChar m).isDigit = true := by
  interval_cases m <;> decide

/-- `fmt2fFrac` always produces sign, integer part, a dot, and exactly two
decimal digit characters. -/
theorem fmt2fFrac_shape (neg : Bool) (a b : Nat) :
    ∃ (sign : String) (ip : Nat) (d₁ d₂ : Char),
      d₁.isDigit = true ∧ d₂.isDigit = true ∧ (sign = "" ∨ sign = "-") ∧
      fmt2fFrac neg a b =
        sign ++ toString ip ++ "." ++ String.mk [d₁, d₂] := by
  refine ⟨if neg then "-" else "", roundHalfEvenFrac (100 * a) b / 100,
    Nat.digitChar (roundHalfEvenFrac (100 * a) b / 10 % 10),
    Nat.digitChar (roundHalfEvenFrac (100 * a) b % 10),
    digitChar_isDigit (Nat.mod_lt _ (by norm_num)),
    digitChar_isDigit (Nat.mod_lt _ (by norm_num)), ?_, rfl⟩
  cases neg <;> simp

/-- `fmt2fFrac` on the zero value is `"0.00"`. -/
theorem fmt2fFrac_zero {b : Nat} (hb : 0 < b) :
    fmt2fFrac false 0 b = "0.00" := by
  have h : roundHalfEvenFrac (100 * 0) b = 0 := by
    simp [roundHalfEvenFrac, hb]
  simp only [fmt2fFrac, h]
  decide

/-- `fmt2fFrac` on a negative value starts with the minus sign. -/
theorem fmt2fFrac_neg (a b : Nat) :
    fmt2fFrac true a b =
      "-" ++ (toString (roundHalfEvenFrac (100 * a) b / 100) ++ "." ++
        String.mk [Nat.digitChar (roundHalfEvenFrac (100 * a) b / 10 % 10),
          Nat.digitChar (roundHalfEvenFrac (100 * a) b % 10)]) := by
  simp [fmt2fFrac, String.append_assoc]

/-- Claim C1, counterexample: a test case whose skipped flag is set and whose
error record is present is classified `test-skipped`, not the error class —
the code checks `skipped` before `error`, refuting the claimed
error-over-skipped precedence. -/
theorem case_icon_class_error_precedence_cex :
    (ReportTestCase.error
        ⟨"t", ⟨0, 0⟩, none, some ⟨"T", some "boom"⟩, true⟩).isSome = true ∧
    ReportTestCase.icon_class
        ⟨"t", ⟨0, 0⟩, none, some ⟨"T", some "boom"⟩, true⟩ ≠ "test-error" ∧
    ReportTestCase.icon_class
        ⟨"t", ⟨0, 0⟩, none, some ⟨"T", some "boom"⟩, true⟩ = "test-skipped" := by
  decide

/-- Claim C1 (amended): `ReportTestCase.icon_class` returns one of
{passed, skipped, error, failure} using the precedence
skipped > error > failure > passed: the skipped class whenever the skipped
flag is set, else the error class when an error record is present, else the
failure class when a failure record is present, else the passed class; it is
a pure function of the case's state. -/
theorem case_icon_class_skipped_first (c : ReportTestCase) :
    (c.icon_class = "test-passed" ∨ c.icon_class = "test-skipped" ∨
      c.icon_class = "test-error" ∨ c.icon_class = "test-failure") ∧
    (c.skipped = true → c.icon_class = "test-skipped") ∧
    (c.skipped = false → c.error.isSome = true →
      c.icon_class = "test-error") ∧
    (c.skipped = false → c.error = none → c.failure.isSome = true →
      c.icon_class = "test-failure") ∧
    (c.skipped = false → c.error = none → c.failure = none →
      c.icon_class = "test-passed") := by
  obtain ⟨n, t, f, e, sk⟩ := c
  cases sk <;> cases e <;> cases f <;>
    simp [ReportTestCase.icon_class]

/-- Witness for C1's amended theorem at a concrete case. -/
theorem case_icon_class_skipped_first_witness :
    ReportTestCase.icon_class ⟨"t", ⟨0, 0⟩, some ⟨"F", none⟩, none, false⟩ =
      "test-failure" :=
  (case_icon_class_skipped_first ⟨"t", ⟨0, 0⟩, some ⟨"F", none⟩, none, false⟩
    ).2.2.2.1 rfl rfl rfl

/-- Claim C2, counterexample: with 100000 tests of which 99999 were skipped
and one passed, the success rate is `1/1000` percent, which formats to
`"0.00%"` although `tests ≠ errors + failures + skipped` — refuting the
claimed "equals 0.00% only if" direction. -/
theorem success_rate_zero_not_only_if_cex :
    ReportTestSuite.success_rate 100000 0 0 99999 = "0.00%" ∧
    (100000 : Int) ≠ 0 + 0 + 99999 := by
  decide

/-- Claim C2 (amended): if `tests == 0` the literal `"0.00%"` is returned; if
`tests > 0` the exact rate `(tests - errors - failures - skipped) * 100 /
tests` is formatted with a sign, an integer part, and exactly two decimal
digits before the `%`, negative rates carrying a leading minus rather than
being special-cased; for `tests > 0` the result is `"0.00%"` whenever
`tests == errors + failures + skipped`, but not only then: any rate rounding
to zero (e.g. `1/1000` percent) prints the same, so the claimed "iff" holds
only in the "if" direction. -/
theorem success_rate_spec (t e f s : Int) :
    (t = 0 → ReportTestSuite.success_rate t e f s = "0.00%") ∧
    (0 < t → t = e + f + s →
      ReportTestSuite.success_rate t e f s = "0.00%") ∧
    (0 < t → ∃ (sign : String) (ip : Nat) (d₁ d₂ : Char),
      d₁.isDigit = true ∧ d₂.isDigit = true ∧ (sign = "" ∨ sign = "-") ∧
      ReportTestSuite.success_rate t e f s =
        sign ++ toString ip ++ "." ++ String.mk [d₁, d₂] ++ "%") ∧
    (0 < t → t < e + f + s → ∃ r : String,
      ReportTestSuite.success_rate t e f s = "-" ++ r) := by
  refine ⟨fun h0 => by simp [ReportTestSuite.success_rate, h0], ?_, ?_, ?_⟩
  · intro ht hsum
    have hne : t ≠ 0 := by omega
    have hnum : (t - (e + f + s)) * 100 = 0 := by omega
    have hpos : 0 < t.natAbs := by omega
    simp only [ReportTestSuite.success_rate, hne, if_pos, ne_eq,
      not_false_eq_true, if_true, hnum]
    simp [fmt2fFrac_zero hpos]
  · intro ht
    have hne : t ≠ 0 := by omega
    simp only [ReportTestSuite.success_rate, hne, ne_eq, not_false_eq_true,
      if_true]
    obtain ⟨sign, ip, d₁, d₂, h1, h2, h3, h4⟩ :=
      fmt2fFrac_shape (decide ((t - (e + f + s)) * 100 * t < 0))
        ((t - (e + f + s)) * 100).natAbs t.natAbs
    exact ⟨sign, ip, d₁, d₂, h1, h2, h3, by rw [h4]⟩
  · intro ht hlt
    have hne : t ≠ 0 := by omega
    have hnumneg : (t - (e + f + s)) * 100 < 0 := by
      have : t - (e + f + s) < 0 := by omega
      exact mul_neg_of_neg_of_pos this (by norm_num)
    have hneg : (t - (e + f + s)) * 100 * t < 0 :=
      mul_neg_of_neg_of_pos hnumneg ht
    have hd : decide ((t - (e + f + s)) * 100 * t < 0) = true :=
      decide_eq_true hneg
    simp only [ReportTestSuite.success_rate, hne, ne_eq, not_false_eq_true,
      if_true, hd]
    exact ⟨_, by rw [fmt2fFrac_neg, String.append_assoc]⟩

/-- Witness for C2's amended theorem: four tests, all unsuccessful. -/
theorem success_rate_spec_witness :
    ReportTestSuite.success_rate 4 1 1 2 = "0.00%" :=
  (success_rate_spec 4 1 1 2).2.1 (by norm_num) rfl

/-- Claim C3: the suite-level `icon_class` returns the skipped class whenever
`tests == skipped` (including all-zero, overriding nonzero errors/failures);
otherwise the error class when `errors > 0`; otherwise the failure class when
`failures > 0`; otherwise the passed class. -/
theorem suite_icon_class_spec (t e f s : Int) :
    (ReportTestSuite.icon_class t e f s = "test-passed" ∨
      ReportTestSuite.icon_class t e f s = "test-skipped" ∨
      ReportTestSuite.icon_class t e f s = "test-error" ∨
      ReportTestSuite.icon_class t e f s = "test-failure") ∧
    (t = s → ReportTestSuite.icon_class t e f s = "test-skipped") ∧
    (t ≠ s → 0 < e → ReportTestSuite.icon_class t e f s = "test-error") ∧
    (t ≠ s → ¬ 0 < e → 0 < f →
      ReportTestSuite.icon_class t e f s = "test-failure") ∧
    (t ≠ s → ¬ 0 < e → ¬ 0 < f →
      ReportTestSuite.icon_class t e f s = "test-passed") := by
  by_cases h1 : t = s <;> by_cases h2 : 0 < e <;> by_cases h3 : 0 < f <;>
    simp [ReportTestSuite.icon_class, h1, h2, h3]

/-- Witness for C3 at a concrete quadruple: two tests, both skipped, with a
nonzero error count — still classified skipped. -/
theorem suite_icon_class_spec_witness :
    ReportTestSuite.icon_class 2 5 7 2 = "test-skipped" :=
  (suite_icon_class_spec 2 5 7 2).2.1 rfl

/-- Equal code points are equal characters. -/
theorem char_toNat_inj {a b : Char} (h : a.toNat = b.toNat) : a = b :=
  Char.ext (UInt32.ext h)

/-- Equal character lists are equal strings. -/
theorem string_data_inj {s t : String} (h : s.data = t.data) : s = t := by
  cases s; cases t; exact congrArg String.mk h

/-- Head/tail unfolding of the code-point comparison. -/
theorem charListLt_cons_iff {a b : Char} {as bs : List Char} :
    charListLt (a :: as) (b :: bs) = true ↔
      a.toNat < b.toNat ∨ (a.toNat = b.toNat ∧ charListLt as bs = true) := by
  simp only [charListLt]
  by_cases h1 : a.toNat < b.toNat
  · rw [if_pos h1]
    exact ⟨fun _ => Or.inl h1, fun _ => rfl⟩
  · rw [if_neg h1]
    by_cases h2 : b.toNat < a.toNat
    · rw [if_pos h2]
      refine ⟨fun h => absurd h Bool.false_ne_true, ?_⟩
      rintro (h | ⟨h, -⟩) <;> omega
    · rw [if_neg h2]
      constructor
      · intro h; exact Or.inr ⟨by omega, h⟩
      · rintro (h | ⟨-, h⟩)
        · exact absurd h h1
        · exact h

/-- The code-point comparison is irreflexive. -/
theorem charListLt_irrefl (l : List Char) : charListLt l l = false := by
  induction l with
  | nil => rfl
  | cons a as ih => simp [charListLt, ih]

/-- The code-point comparison is transitive. -/
theorem charListLt_trans : ∀ {l₁ l₂ l₃ : List Char},
    charListLt l₁ l₂ = true → charListLt l₂ l₃ = true →
    charListLt l₁ l₃ = true := by
  intro l₁
  induction l₁ with
  | nil =>
    intro l₂ l₃ h₁ h₂
    cases l₂ with
    | nil => simp [charListLt] at h₁
    | cons b bs =>
      cases l₃ with
      | nil => simp [charListLt] at h₂
      | cons c cs => rfl
  | cons a as ih =>
    intro l₂ l₃ h₁ h₂
    cases l₂ with
    | nil => simp [charListLt] at h₁
    | cons b bs =>
      cases l₃ with
      | nil => simp [charListLt] at h₂
      | cons c cs =>
        rw [charListLt_cons_iff] at h₁ h₂ ⊢
        rcases h₁ with h₁ | ⟨h₁, h₁'⟩ <;> rcases h₂ with h₂ | ⟨h₂, h₂'⟩
        · exact Or.inl (by omega)
        · exact Or.inl (by omega)
        · exact Or.inl (by omega)
        · exact Or.inr ⟨by omega, ih h₁' h₂'⟩

/-- The code-point comparison is trichotomous. -/
theorem charListLt_trichotomy : ∀ (l₁ l₂ : List Char),
    charListLt l₁ l₂ = true ∨ charListLt l₂ l₁ = true ∨ l₁ = l₂ := by
  intro l₁
  induction l₁ with
  | nil =>
    intro l₂
    cases l₂ with
    | nil => exact Or.inr (Or.inr rfl)
    | cons b bs => exact Or.inl rfl
  | cons a as ih =>
    intro l₂
    cases l₂ with
    | nil => exact Or.inr (Or.inl rfl)
    | cons b bs =>
      rcases Nat.lt_trichotomy a.toNat b.toNat with h | h | h
      · exact Or.inl (charListLt_cons_iff.mpr (Or.inl h))
      · rcases ih bs with h' | h' | h'
        · exact Or.inl (charListLt_cons_iff.mpr (Or.inr ⟨h, h'⟩))
        · exact Or.inr (Or.inl (charListLt_cons_iff.mpr (Or.inr ⟨h.symm, h'⟩)))
        · exact Or.inr (Or.inr (by rw [char_toNat_inj h, h']))
      · exact Or.inr (Or.inl (charListLt_cons_iff.mpr (Or.inl h)))

/-- Characterization of `ReportTestSuite.__lt__`: `a` sorts strictly before
`b` exactly when `(a.errors, a.failures)` is lexicographically greater than
`(b.errors, b.failures)`, or the pairs are equal and `a`'s lowercased name is
strictly less than `b`'s. -/
theorem suiteLt_iff (a b : ReportTestSuite) :
    ReportTestSuite.lt a b = true ↔
      ((b.errors < a.errors ∨
          (a.errors = b.errors ∧ b.failures < a.failures)) ∨
        (a.errors = b.errors ∧ a.failures = b.failures ∧
          pyStrLt (pyLower a.name) (pyLower b.name) = true)) := by
  have hgd : pyPairGt (a.errors, a.failures) (b.errors, b.failures) = true ↔
      (b.errors < a.errors ∨ (a.errors = b.errors ∧ b.failures < a.failures)) := by
    simp [pyPairGt]
  have hld : pyPairLt (a.errors, a.failures) (b.errors, b.failures) = true ↔
      (a.errors < b.errors ∨ (b.errors = a.errors ∧ a.failures < b.failures)) := by
    simp [pyPairLt, pyPairGt]
  simp only [ReportTestSuite.lt]
  split
  · rename_i h
    exact iff_of_true rfl (Or.inl (hgd.mp h))
  · rename_i h
    split
    · rename_i h2
      refine iff_of_false Bool.false_ne_true ?_
      rintro (hx | ⟨e1, e2, -⟩)
      · exact h (hgd.mpr hx)
      · have := hld.mp h2; omega
    · rename_i h2
      have hnp1 : ¬(b.errors < a.errors ∨
          (a.errors = b.errors ∧ b.failures < a.failures)) :=
        fun hx => h (hgd.mpr hx)
      have hnp2 : ¬(a.errors < b.errors ∨
          (b.errors = a.errors ∧ a.failures < b.failures)) :=
        fun hx => h2 (hld.mpr hx)
      have e1 : a.errors = b.errors := by omega
      have e2 : a.failures = b.failures := by omega
      constructor
      · intro hx; exact Or.inr ⟨e1, e2, hx⟩
      · rintro (hx | ⟨-, -, hx⟩)
        · exact absurd hx hnp1
        · exact hx

/-- Claim C4: `__lt__` characterized exactly as the claim states (worse
`(errors, failures)` pair first, case-insensitive name tie-break); it is
irreflexive, transitive and total up to equality of the sort key, and the two
concrete example orderings from the spec hold. -/
theorem suite_lt_spec :
    (∀ a b : ReportTestSuite, ReportTestSuite.lt a b = true ↔
      ((b.errors < a.errors ∨
          (a.errors = b.errors ∧ b.failures < a.failures)) ∨
        (a.errors = b.errors ∧ a.failures = b.failures ∧
          pyStrLt (pyLower a.name) (pyLower b.name) = true))) ∧
    (∀ a : ReportTestSuite, ReportTestSuite.lt a a = false) ∧
    (∀ a b c : ReportTestSuite, ReportTestSuite.lt a b = true →
      ReportTestSuite.lt b c = true → ReportTestSuite.lt a c = true) ∧
    (∀ a b : ReportTestSuite, ReportTestSuite.lt a b = true ∨
      ReportTestSuite.lt b a = true ∨
      (a.errors = b.errors ∧ a.failures = b.failures ∧
        pyLower a.name = pyLower b.name)) ∧
    ReportTestSuite.lt ⟨"b", 0, 1, 0, 0, ⟨0, 0⟩, .original [], none, none⟩
      ⟨"a", 0, 0, 2, 0, ⟨0, 0⟩, .original [], none, none⟩ = true ∧
    ReportTestSuite.lt ⟨"Alpha", 0, 0, 0, 0, ⟨0, 0⟩, .original [], none, none⟩
      ⟨"beta", 0, 0, 0, 0, ⟨0, 0⟩, .original [], none, none⟩ = true := by
  refine ⟨suiteLt_iff, ?_, ?_, ?_, by decide, by decide⟩
  · intro a
    rw [Bool.eq_false_iff]
    intro h
    rcases (suiteLt_iff a a).mp h with h' | ⟨-, -, h'⟩
    · omega
    · simp only [pyStrLt] at h'
      rw [charListLt_irrefl] at h'
      exact absurd h' Bool.false_ne_true
  · intro a b c hab hbc
    rw [suiteLt_iff] at hab hbc ⊢
    rcases hab with hab | ⟨e1, f1, n1⟩ <;> rcases hbc with hbc | ⟨e2, f2, n2⟩
    · exact Or.inl (by omega)
    · exact Or.inl (by omega)
    · exact Or.inl (by omega)
    · exact Or.inr ⟨by omega, by omega, charListLt_trans n1 n2⟩
  · intro a b
    rcases Int.lt_trichotomy a.errors b.errors with he | he | he
    · exact Or.inr (Or.inl ((suiteLt_iff b a).mpr (Or.inl (Or.inl he))))
    · rcases Int.lt_trichotomy a.failures b.failures with hf | hf | hf
      · exact Or.inr (Or.inl
          ((suiteLt_iff b a).mpr (Or.inl (Or.inr ⟨he.symm, hf⟩))))
      · rcases charListLt_trichotomy (pyLower a.name).data
          (pyLower b.name).data with hn | hn | hn
        · exact Or.inl ((suiteLt_iff a b).mpr (Or.inr ⟨he, hf, hn⟩))
        · exact Or.inr (Or.inl
            ((suiteLt_iff b a).mpr (Or.inr ⟨he.symm, hf.symm, hn⟩)))
        · exact Or.inr (Or.inr ⟨he, hf, string_data_inj hn⟩)
      · exact Or.inl ((suiteLt_iff a b).mpr (Or.inl (Or.inr ⟨he, hf⟩)))
    · exact Or.inl ((suiteLt_iff a b).mpr (Or.inl (Or.inl he)))

/-- Witness for C4's transitivity conjunct at three concrete suites. -/
theorem suite_lt_spec_witness :
    ReportTestSuite.lt ⟨"c", 0, 2, 0, 0, ⟨0, 0⟩, .original [], none, none⟩
      ⟨"a", 0, 0, 0, 0, ⟨0, 0⟩, .original [], none, none⟩ = true :=
  suite_lt_spec.2.2.1 _ ⟨"b", 0, 1, 0, 0, ⟨0, 0⟩, .original [], none, none⟩ _
    (by decide) (by decide)

/-- An `Except` that is never `ok` is an `error`. -/
theorem exists_error {ε α : Type} (e : Except ε α) (h : ∀ x, e ≠ .ok x) :
    ∃ err, e = .error err := by
  cases e with
  | error err => exact ⟨err, rfl⟩
  | ok x => exact absurd rfl (h x)

/-- A malformed file anywhere in the list makes the accumulation loop raise. -/
theorem parseAllFiles_malformed : ∀ (files : List (Option XmlElem)),
    none ∈ files → ∃ e, parseAllFiles files = .error e := by
  intro files
  induction files with
  | nil => intro h; exact absurd h (List.not_mem_nil _)
  | cons f rest ih =>
    intro h
    cases f with
    | none =>
      exact ⟨.malformedXml,
        by simp [parseAllFiles, JUnitHtmlReport._parse_xml_file, etParse]⟩
    | some r =>
      have hr : none ∈ rest := by
        rcases List.mem_cons.mp h with h' | h'
        · exact absurd h' (by simp)
        · exact h'
      cases hf : JUnitHtmlReport._parse_xml_file (some r) with
      | error e' => exact ⟨e', by simp [parseAllFiles, hf]⟩
      | ok ss =>
        obtain ⟨e, he⟩ := ih hr
        exact ⟨e, by simp [parseAllFiles, hf, he]⟩

/-- Claim C5: a parse failure — in particular any malformed `TEST-*.xml` file —
propagates out of `report` as a `ParseError`, and the report file's previous
contents (or absence) are untouched: all parsing completes before the output
file is opened for writing. -/
theorem report_parse_error_spec :
    (∀ (files : List (Option XmlElem)) (prev : Option ReportValues)
        (e : ParseError),
      JUnitHtmlReport._parse_xml_files files = .error e →
      JUnitHtmlReport.report files prev = (.error (.parseErr e), prev)) ∧
    (∀ (files : List (Option XmlElem)) (prev : Option ReportValues),
      none ∈ files →
      ∃ e : ParseError,
        JUnitHtmlReport.report files prev = (.error (.parseErr e), prev)) := by
  constructor
  · intro files prev e h
    simp [JUnitHtmlReport.report, h]
  · intro files prev h
    obtain ⟨e, he⟩ := parseAllFiles_malformed files h
    have h2 : JUnitHtmlReport._parse_xml_files files = .error e := by
      simp [JUnitHtmlReport._parse_xml_files, he]
    exact ⟨e, by simp [JUnitHtmlReport.report, h2]⟩

/-- Witness for C5: one malformed file, a pre-existing report left as it was. -/
theorem report_parse_error_spec_witness :
    ∃ e : ParseError,
      JUnitHtmlReport.report [none]
          (some ⟨0, 0, 0, 0, ⟨0, 0⟩, "0.00%", "test-skipped", []⟩) =
        (.error (.parseErr e),
          some ⟨0, 0, 0, 0, ⟨0, 0⟩, "0.00%", "test-skipped", []⟩) :=
  report_parse_error_spec.2 [none]
    (some ⟨0, 0, 0, 0, ⟨0, 0⟩, "0.00%", "test-skipped", []⟩)
    (List.mem_cons_self none [])

/-- Every suite built by the `testsuite` loop body carries the given flat case
list. -/
theorem parseSuiteElem_testcases {ts : XmlElem} {cs : List ReportTestCase}
    {s : ReportTestSuite} (h : parseSuiteElem ts cs = .ok s) :
    s.testcases = .original cs := by
  simp only [parseSuiteElem] at h
  repeat' split at h
  all_goals first
    | exact Except.noConfusion h
    | (injection h with h; subst h; rfl)

/-- Every suite built by the `testsuite` loop carries the given flat case
list. -/
theorem parseSuiteElems_testcases (els : List XmlElem)
    (cs : List ReportTestCase) (ss : List ReportTestSuite)
    (h : parseSuiteElems els cs = .ok ss) :
    ∀ s ∈ ss, s.testcases = .original cs := by
  induction els generalizing ss with
  | nil =>
    simp only [parseSuiteElems] at h
    injection h with h
    subst h
    intro s hs
    exact absurd hs (List.not_mem_nil _)
  | cons ts rest ih =>
    simp only [parseSuiteElems] at h
    split at h
    · exact Except.noConfusion h
    · rename_i s1 hs1
      split at h
      · exact Except.noConfusion h
      · rename_i ss1 hss1
        injection h with h
        subst h
        intro s hs
        rcases List.mem_cons.mp hs with h' | h'
        · subst h'; exact parseSuiteElem_testcases hs1
        · exact ih ss1 hss1 s h'

/-- Claim C6: when a file parses successfully, every `ReportTestSuite` built
from a `<testsuite>` element of that file is attached the same flat list of
all `ReportTestCase` objects collected from the whole file — cases are never
partitioned per suite. -/
theorem parse_file_shared_testcases_spec (root : XmlElem)
    (suites : List ReportTestSuite)
    (h : JUnitHtmlReport._parse_xml_file (some root) = .ok suites) :
    ∃ cs, parseTestcaseElems (root.iter "testcase") = .ok cs ∧
      ∀ s ∈ suites, s.testcases = .original cs := by
  simp only [JUnitHtmlReport._parse_xml_file, etParse] at h
  split at h
  · exact Except.noConfusion h
  · rename_i cs htc
    exact ⟨cs, htc, parseSuiteElems_testcases _ _ suites h⟩

/-- Witness for C6: a file whose root `<testsuite>` holds one `<testcase>`. -/
theorem parse_file_shared_testcases_spec_witness :
    ∃ cs, parseTestcaseElems ((XmlElem.mk "testsuite"
        [("name", "a"), ("tests", "1"), ("errors", "0"), ("failures", "0"),
          ("time", "0.5")] none
        [XmlElem.mk "testcase" [("name", "t1"), ("time", "0.1")] none []]
      ).iter "testcase") = .ok cs ∧
      ∀ s ∈ [(⟨"a", 1, 0, 0, 0, ⟨5, 1⟩,
          .original [⟨"t1", ⟨1, 1⟩, none, none, false⟩], none, none⟩ :
            ReportTestSuite)],
        s.testcases = .original cs :=
  parse_file_shared_testcases_spec _ _ (by rfl)

/-- What the overwrite loop computes when it does not raise: the accumulator
if the element list is empty, else the record built from the last element. -/
theorem lastFE_ok : ∀ {es : List XmlElem} {acc r : Option FERec},
    lastFE acc es = .ok r →
    (es = [] → r = acc) ∧
    (∀ f, es.getLast? = some f → ∃ t, f.attrib.lookup "type" = some t ∧
      r = some ⟨t, f.text⟩) := by
  intro es
  induction es with
  | nil =>
    intro acc r h
    simp only [lastFE] at h
    injection h with h
    exact ⟨fun _ => h.symm, fun f hf => by simp at hf⟩
  | cons g gs ih =>
    intro acc r h
    simp only [lastFE] at h
    split at h
    · exact Except.noConfusion h
    · rename_i t ht
      obtain ⟨h1, h2⟩ := ih h
      refine ⟨fun hl => List.noConfusion hl, ?_⟩
      intro f hf
      cases gs with
      | nil =>
        rw [List.getLast?_singleton] at hf
        injection hf with hf
        subst hf
        exact ⟨t, ht, h1 rfl⟩
      | cons g' gs' =>
        rw [List.getLast?_cons_cons] at hf
        exact h2 f hf

/-- Claim C7: for a `<testcase>` element whose parse succeeds, the failure
record comes from the last `<failure>` descendant in document order (none when
there is none), the error record likewise from the last `<error>` descendant,
and the skipped flag is set iff at least one `<skipped>` element occurs under
the testcase. -/
theorem parse_testcase_last_wins_spec (tc : XmlElem) (c : ReportTestCase)
    (h : parseTestcaseElem tc = .ok c) :
    ((tc.iter "failure" = [] → c.failure = none) ∧
      (∀ f, (tc.iter "failure").getLast? = some f →
        ∃ t, f.attrib.lookup "type" = some t ∧ c.failure = some ⟨t, f.text⟩)) ∧
    ((tc.iter "error" = [] → c.error = none) ∧
      (∀ f, (tc.iter "error").getLast? = some f →
        ∃ t, f.attrib.lookup "type" = some t ∧ c.error = some ⟨t, f.text⟩)) ∧
    (c.skipped = true ↔ tc.iter "skipped" ≠ []) := by
  simp only [parseTestcaseElem] at h
  split at h
  · exact Except.noConfusion h
  · rename_i fail hfail
    split at h
    · exact Except.noConfusion h
    · rename_i err herr
      split at h
      · exact Except.noConfusion h
      · rename_i nm hnm
        split at h
        · exact Except.noConfusion h
        · rename_i tm htm
          injection h with h
          subst h
          obtain ⟨hf1, hf2⟩ := lastFE_ok hfail
          obtain ⟨he1, he2⟩ := lastFE_ok herr
          refine ⟨⟨hf1, hf2⟩, ⟨he1, he2⟩, ?_⟩
          cases hik : tc.iter "skipped" with
          | nil => simp [hik]
          | cons x xs => simp [hik]

/-- Witness for C7: two `<failure>` children, the second one wins; one
`<skipped>` child sets the flag. -/
theorem parse_testcase_last_wins_spec_witness :
    ∃ t, (XmlElem.mk "failure" [("type", "B")] (some "m2") []).attrib.lookup
        "type" = some t ∧
      (⟨"t1", ⟨0, 0⟩, some ⟨"B", some "m2"⟩, none, true⟩ :
        ReportTestCase).failure = some ⟨t, some "m2"⟩ :=
  ((parse_testcase_last_wins_spec
      (XmlElem.mk "testcase" [("name", "t1")] none
        [XmlElem.mk "failure" [("type", "A")] (some "m1") [],
          XmlElem.mk "failure" [("type", "B")] (some "m2") [],
          XmlElem.mk "skipped" [] none []])
      ⟨"t1", ⟨0, 0⟩, some ⟨"B", some "m2"⟩, none, true⟩
      (by rfl)).1.2) (XmlElem.mk "failure" [("type", "B")] (some "m2") [])
    (by rfl)

/-- Claim C8: parsing a `<testsuite>` element reads `name`, `tests`, `errors`,
`failures` and `time` as required attributes — a missing one, or a
non-numeric count or time, raises a `ParseError` — while `skipped` is
optional and silently defaults to `0` when absent, the only defaulting
performed. -/
theorem parse_suite_required_attrs_spec (ts : XmlElem)
    (cs : List ReportTestCase) :
    (ts.attrib.lookup "name" = none →
      ∃ e, parseSuiteElem ts cs = .error e) ∧
    (ts.attrib.lookup "tests" = none →
      ∃ e, parseSuiteElem ts cs = .error e) ∧
    (ts.attrib.lookup "errors" = none →
      ∃ e, parseSuiteElem ts cs = .error e) ∧
    (ts.attrib.lookup "failures" = none →
      ∃ e, parseSuiteElem ts cs = .error e) ∧
    (ts.attrib.lookup "time" = none →
      ∃ e, parseSuiteElem ts cs = .error e) ∧
    (∀ v er, ts.attrib.lookup "tests" = some v → pyInt v = .error er →
      ∃ e, parseSuiteElem ts cs = .error e) ∧
    (∀ v er, ts.attrib.lookup "errors" = some v → pyInt v = .error er →
      ∃ e, parseSuiteElem ts cs = .error e) ∧
    (∀ v er, ts.attrib.lookup "failures" = some v → pyInt v = .error er →
      ∃ e, parseSuiteElem ts cs = .error e) ∧
    (∀ v er, ts.attrib.lookup "skipped" = some v → pyInt v = .error er →
      ∃ e, parseSuiteElem ts cs = .error e) ∧
    (∀ v er, ts.attrib.lookup "time" = some v → pyFloat v = .error er →
      ∃ e, parseSuiteElem ts cs = .error e) ∧
    (∀ (nv tv ev fv tmv : String) (t e f : Int) (tm : PyFloat),
      ts.attrib.lookup "name" = some nv →
      ts.attrib.lookup "tests" = some tv → pyInt tv = .ok t →
      ts.attrib.lookup "errors" = some ev → pyInt ev = .ok e →
      ts.attrib.lookup "failures" = some fv → pyInt fv = .ok f →
      ts.attrib.lookup "skipped" = none →
      ts.attrib.lookup "time" = some tmv → pyFloat tmv = .ok tm →
      parseSuiteElem ts cs =
        .ok ⟨nv, t, e, f, 0, tm, .original cs, none, none⟩) := by
  refine ⟨?_, ?_, ?_, ?_, ?_, ?_, ?_, ?_, ?_, ?_, ?_⟩
  · intro hm
    refine exists_error _ (fun x hx => ?_)
    simp only [parseSuiteElem, getAttr, hm] at hx
    exact Except.noConfusion hx
  · intro hm
    refine exists_error _ (fun x hx => ?_)
    simp only [parseSuiteElem, getAttr, hm] at hx
    repeat' split at hx
    all_goals exact Except.noConfusion hx
  · intro hm
    refine exists_error _ (fun x hx => ?_)
    simp only [parseSuiteElem, getAttr, hm] at hx
    repeat' split at hx
    all_goals exact Except.noConfusion hx
  · intro hm
    refine exists_error _ (fun x hx => ?_)
    simp only [parseSuiteElem, getAttr, hm] at hx
    repeat' split at hx
    all_goals exact Except.noConfusion hx
  · intro hm
    refine exists_error _ (fun x hx => ?_)
    simp only [parseSuiteElem, getAttr, hm] at hx
    repeat' split at hx
    all_goals exact Except.noConfusion hx
  · intro v er hv he
    refine exists_error _ (fun x hx => ?_)
    simp only [parseSuiteElem, getAttr, hv, he] at hx
    repeat' split at hx
    all_goals exact Except.noConfusion hx
  · intro v er hv he
    refine exists_error _ (fun x hx => ?_)
    simp only [parseSuiteElem, getAttr, hv, he] at hx
    repeat' split at hx
    all_goals exact Except.noConfusion hx
  · intro v er hv he
    refine exists_error _ (fun x hx => ?_)
    simp only [parseSuiteElem, getAttr, hv, he] at hx
    repeat' split at hx
    all_goals exact Except.noConfusion hx
  · intro v er hv he
    refine exists_error _ (fun x hx => ?_)
    simp only [parseSuiteElem, getAttr, hv, he] at hx
    repeat' split at hx
    all_goals exact Except.noConfusion hx
  · intro v er hv he
    refine exists_error _ (fun x hx => ?_)
    simp only [parseSuiteElem, getAttr, hv, he] at hx
    repeat' split at hx
    all_goals exact Except.noConfusion hx
  · intro nv tv ev fv tmv t e f tm h1 h2 h3 h4 h5 h6 h7 h8 h9 h10
    simp only [parseSuiteElem, getAttr, h1, h2, h3, h4, h5, h6, h7, h8, h9,
      h10]

/-- Witness for C8: a suite element with all required attributes, `skipped`
absent. -/
theorem parse_suite_required_attrs_spec_witness :
    parseSuiteElem
        (XmlElem.mk "testsuite"
          [("name", "s"), ("tests", "3"), ("errors", "1"), ("failures", "0"),
            ("time", "2.5")] none [])
        [] =
      .ok ⟨"s", 3, 1, 0, 0, ⟨25, 1⟩, .original [], none, none⟩ :=
  (parse_suite_required_attrs_spec _ []).2.2.2.2.2.2.2.2.2.2
    "s" "3" "1" "0" "2.5" 3 1 0 ⟨25, 1⟩
    rfl rfl (by rfl) rfl (by rfl) rfl (by rfl) rfl rfl (by rfl)

/-- Claim C9: `ReportTestSuite.as_dict` does not leave the suite unchanged —
the returned mapping is the suite's own attribute dictionary (modelled by
returning the mutated suite itself), so the call adds the `success` and
`icon_class` entries, replaces `testcases` with the mapped case display
records while all other attributes keep their values, and a subsequent call
operates on the already-converted `testcases` value (raising as soon as the
converted list is non-empty). -/
theorem suite_as_dict_mutation_spec (s : ReportTestSuite)
    (cs : List ReportTestCase) (h : s.testcases = .original cs) :
    ∃ s', s.as_dict = .ok s' ∧
      s' ≠ s ∧
      s'.success = some (ReportTestSuite.success_rate s.tests s.errors
        s.failures s.skipped) ∧
      s'.icon_class_entry = some (ReportTestSuite.icon_class s.tests s.errors
        s.failures s.skipped) ∧
      s'.testcases = .converted (cs.map ReportTestCase.as_dict) ∧
      s'.name = s.name ∧ s'.tests = s.tests ∧ s'.errors = s.errors ∧
      s'.failures = s.failures ∧ s'.skipped = s.skipped ∧
      s'.time = s.time ∧
      (cs ≠ [] → ∃ e, ReportTestSuite.as_dict s' = .error e) := by
  refine ⟨{ s with
      success := some (ReportTestSuite.success_rate s.tests s.errors
        s.failures s.skipped)
      icon_class_entry := some (ReportTestSuite.icon_class s.tests s.errors
        s.failures s.skipped)
      testcases := .converted (cs.map ReportTestCase.as_dict) },
    ?_, ?_, rfl, rfl, rfl, rfl, rfl, rfl, rfl, rfl, rfl, ?_⟩
  · simp [ReportTestSuite.as_dict, mapCaseDicts, h]
  · intro heq
    have := congrArg ReportTestSuite.testcases heq
    rw [h] at this
    exact TCField.noConfusion this
  · intro hne
    cases hm : cs with
    | nil => exact absurd hm hne
    | cons c cs' =>
      exact ⟨.attributeError "as_dict",
        by simp [ReportTestSuite.as_dict, mapCaseDicts, hm]⟩

/-- Witness for C9 at a concrete one-case suite. -/
theorem suite_as_dict_mutation_spec_witness :
    ∃ s', ReportTestSuite.as_dict
        ⟨"s", 1, 0, 0, 0, ⟨0, 0⟩,
          .original [⟨"t", ⟨0, 0⟩, none, none, false⟩], none, none⟩ = .ok s' ∧
      s' ≠ ⟨"s", 1, 0, 0, 0, ⟨0, 0⟩,
          .original [⟨"t", ⟨0, 0⟩, none, none, false⟩], none, none⟩ ∧
      s'.success = some (ReportTestSuite.success_rate 1 0 0 0) ∧
      s'.icon_class_entry = some (ReportTestSuite.icon_class 1 0 0 0) ∧
      s'.testcases = .converted
        ([⟨"t", ⟨0, 0⟩, none, none, false⟩].map ReportTestCase.as_dict) ∧
      s'.name = "s" ∧ s'.tests = 1 ∧ s'.errors = 0 ∧
      s'.failures = 0 ∧ s'.skipped = 0 ∧
      s'.time = ⟨0, 0⟩ ∧
      ([(⟨"t", ⟨0, 0⟩, none, none, false⟩ : ReportTestCase)] ≠ [] →
        ∃ e, ReportTestSuite.as_dict s' = .error e) :=
  suite_as_dict_mutation_spec
    ⟨"s", 1, 0, 0, 0, ⟨0, 0⟩,
      .original [⟨"t", ⟨0, 0⟩, none, none, false⟩], none, none⟩
    [⟨"t", ⟨0, 0⟩, none, none, false⟩] rfl

/-- The overwrite loop raises as soon as any iterated element lacks a `type`
attribute. -/
theorem lastFE_missing_type : ∀ {es : List XmlElem} (acc : Option FERec),
    (∃ f ∈ es, f.attrib.lookup "type" = none) →
    ∃ e, lastFE acc es = .error e := by
  intro es
  induction es with
  | nil =>
    intro acc h
    rcases h with ⟨f, hf, -⟩
    exact absurd hf (List.not_mem_nil _)
  | cons g gs ih =>
    intro acc h
    rcases h with ⟨f, hf, hty⟩
    rcases List.mem_cons.mp hf with heq | hf'
    · subst heq
      exact ⟨.keyError "type", by simp [lastFE, hty]⟩
    · cases hg : g.attrib.lookup "type" with
      | none => exact ⟨.keyError "type", by simp [lastFE, hg]⟩
      | some t =>
        obtain ⟨e, he⟩ := ih (some ⟨t, g.text⟩) ⟨f, hf', hty⟩
        exact ⟨e, by simp [lastFE, hg, he]⟩

/-- A testcase containing a `<failure>` or `<error>` descendant without a
`type` attribute fails to parse. -/
theorem parseTestcaseElem_missing_type {tc : XmlElem}
    (h : (∃ f ∈ tc.iter "failure", f.attrib.lookup "type" = none) ∨
         (∃ f ∈ tc.iter "error", f.attrib.lookup "type" = none)) :
    ∃ e, parseTestcaseElem tc = .error e := by
  rcases h with h | h
  · obtain ⟨e, he⟩ := lastFE_missing_type none h
    exact ⟨e, by simp [parseTestcaseElem, he]⟩
  · cases hf : lastFE none (tc.iter "failure") with
    | error e => exact ⟨e, by simp [parseTestcaseElem, hf]⟩
    | ok fail =>
      obtain ⟨e, he⟩ := lastFE_missing_type none h
      exact ⟨e, by simp [parseTestcaseElem, hf, he]⟩

/-- A failing testcase anywhere in the collection loop aborts it. -/
theorem parseTestcaseElems_member_error : ∀ {els : List XmlElem}
    {tc : XmlElem}, tc ∈ els → (∃ e, parseTestcaseElem tc = .error e) →
    ∃ e, parseTestcaseElems els = .error e := by
  intro els
  induction els with
  | nil =>
    intro tc htc _
    exact absurd htc (List.not_mem_nil _)
  | cons g gs ih =>
    intro tc htc herr
    rcases List.mem_cons.mp htc with heq | htc'
    · subst heq
      obtain ⟨e, he⟩ := herr
      exact ⟨e, by simp [parseTestcaseElems, he]⟩
    · cases hg : parseTestcaseElem g with
      | error e => exact ⟨e, by simp [parseTestcaseElems, hg]⟩
      | ok c =>
        obtain ⟨e, he⟩ := ih htc' herr
        exact ⟨e, by simp [parseTestcaseElems, hg, he]⟩

/-- Claim C10: if any `<failure>` or `<error>` element under a `<testcase>`
lacks a `type` attribute, parsing the whole file fails (the parser reads
`type` unconditionally for every such element), even though the display
record built by `as_dict` only ever emits the message text — replacing every
record's type with any other value leaves `as_dict` unchanged. -/
theorem missing_type_attr_fails_spec (root tc : XmlElem)
    (htc : tc ∈ root.iter "testcase")
    (h : (∃ f ∈ tc.iter "failure", f.attrib.lookup "type" = none) ∨
         (∃ f ∈ tc.iter "error", f.attrib.lookup "type" = none)) :
    (∃ e, JUnitHtmlReport._parse_xml_file (some root) = .error e) ∧
    (∀ (c : ReportTestCase) (ty₁ ty₂ : String),
      ReportTestCase.as_dict
        { c with failure := c.failure.map (fun r => ⟨ty₁, r.message⟩),
                 error := c.error.map (fun r => ⟨ty₂, r.message⟩) } =
      ReportTestCase.as_dict c) := by
  constructor
  · obtain ⟨e, he⟩ :=
      parseTestcaseElems_member_error htc (parseTestcaseElem_missing_type h)
    exact ⟨e, by simp [JUnitHtmlReport._parse_xml_file, etParse, he]⟩
  · intro c ty₁ ty₂
    obtain ⟨n, t, fl, er, sk⟩ := c
    cases fl <;> cases er <;>
      simp [ReportTestCase.as_dict, ReportTestCase.icon_class]

/-- Witness for C10: a testcase whose only `<failure>` child has no `type`
attribute makes the whole file fail to parse. -/
theorem missing_type_attr_fails_spec_witness :
    ∃ e, JUnitHtmlReport._parse_xml_file
        (some (XmlElem.mk "testsuite"
          [("name", "a"), ("tests", "1"), ("errors", "0"), ("failures", "1"),
            ("time", "0")] none
          [XmlElem.mk "testcase" [("name", "t")] none
            [XmlElem.mk "failure" [] (some "m") []]])) = .error e :=
  (missing_type_attr_fails_spec _
    (XmlElem.mk "testcase" [("name", "t")] none
      [XmlElem.mk "failure" [] (some "m") []])
    (by exact List.mem_cons_self _ _)
    (Or.inl ⟨XmlElem.mk "failure" [] (some "m") [],
      by exact List.mem_cons_self _ _, rfl⟩)).1
